import Mathlib

set_option maxRecDepth 8192

namespace Langfuse

/-- The base64 alphabet used by `base64Encode` (src/langfuse.go line 526). -/
def base64Chars : List Char :=
  "ABCDEFGHIJKLMNOPQRSTUVWXYZabcdefghijklmnopqrstuvwxyz0123456789+/".toList

/-- Shallow embedding of the hand-rolled `base64Encode` (src/langfuse.go lines
525-556).  Bytes are natural numbers below 256.  The Go loop consumes the
input three bytes at a time; missing second and third bytes of the final
group default to zero, and the corresponding output positions become `=`. -/
def base64Encode : List Nat → List Char
  | [] => []
  | [b1] =>
      [base64Chars.getD ((b1 >>> 2) &&& 0x3F) 'A',
       base64Chars.getD (((b1 &&& 0x03) <<< 4) ||| ((0 >>> 4) &&& 0x0F)) 'A',
       '=', '=']
  | [b1, b2] =>
      [base64Chars.getD ((b1 >>> 2) &&& 0x3F) 'A',
       base64Chars.getD (((b1 &&& 0x03) <<< 4) ||| ((b2 >>> 4) &&& 0x0F)) 'A',
       base64Chars.getD (((b2 &&& 0x0F) <<< 2) ||| ((0 >>> 6) &&& 0x03)) 'A',
       '=']
  | b1 :: b2 :: b3 :: rest =>
      base64Chars.getD ((b1 >>> 2) &&& 0x3F) 'A' ::
      base64Chars.getD (((b1 &&& 0x03) <<< 4) ||| ((b2 >>> 4) &&& 0x0F)) 'A' ::
      base64Chars.getD (((b2 &&& 0x0F) <<< 2) ||| ((b3 >>> 6) &&& 0x03)) 'A' ::
      base64Chars.getD (b3 &&& 0x3F) 'A' ::
      base64Encode rest

/-- The RFC 4648 base64 alphabet, written from the specification's words:
the 64 characters A-Z, a-z, 0-9, + and /. -/
def rfc4648Alphabet : List Char :=
  "ABCDEFGHIJKLMNOPQRSTUVWXYZabcdefghijklmnopqrstuvwxyz0123456789+/".toList

/-- RFC 4648 base64 encoding, written from the specification: each full
3-byte group forms a 24-bit big-endian number that is sliced into four 6-bit
indices into the alphabet; a trailing 2-byte group yields three characters
followed by one `=`; a trailing 1-byte group yields two characters followed
by two `=`. -/
def rfc4648Encode : List Nat → List Char
  | [] => []
  | [b1] =>
      let n := b1 * 65536
      [rfc4648Alphabet.getD (n / 262144 % 64) 'A',
       rfc4648Alphabet.getD (n / 4096 % 64) 'A', '=', '=']
  | [b1, b2] =>
      let n := b1 * 65536 + b2 * 256
      [rfc4648Alphabet.getD (n / 262144 % 64) 'A',
       rfc4648Alphabet.getD (n / 4096 % 64) 'A',
       rfc4648Alphabet.getD (n / 64 % 64) 'A', '=']
  | b1 :: b2 :: b3 :: rest =>
      let n := b1 * 65536 + b2 * 256 + b3
      rfc4648Alphabet.getD (n / 262144 % 64) 'A' ::
      rfc4648Alphabet.getD (n / 4096 % 64) 'A' ::
      rfc4648Alphabet.getD (n / 64 % 64) 'A' ::
      rfc4648Alphabet.getD (n % 64) 'A' ::
      rfc4648Encode rest

/-- The UTF-8 bytes of a string, as natural numbers (Go strings are byte
sequences; `[]byte(s)` yields the UTF-8 bytes). -/
def strBytes (s : String) : List Nat :=
  s.toUTF8.toList.map (fun b => b.toNat)

/-- Shallow embedding of `encodeBasicAuth` (src/langfuse.go lines 519-522):
`username + ":" + password`, base64-encoded. -/
def encodeBasicAuth (username password : String) : String :=
  String.mk (base64Encode (strBytes (username ++ ":" ++ password)))

/-- JSON values, the target of `encoding/json` marshalling.  An attribute
produced by `json.Marshal` is modelled by the JSON tree it renders; Go
float64 field values are modelled as rationals. -/
inductive Json where
  | null
  | bool (b : Bool)
  | num (q : Rat)
  | str (s : String)
  | arr (xs : List Json)
  | obj (fields : List (String × Json))

/-- A Go `interface{}` value as it matters to this wrapper: the metadata
options type-assert `value.(string)`, everything else is marshalled. -/
inductive GoValue where
  | str (s : String)
  | int (n : Int)
  | bool (b : Bool)
  | null
deriving DecidableEq

/-- `json.Marshal` on the modelled `interface{}` values. -/
def marshalValue : GoValue → Json
  | .str s => .str s
  | .int n => .num (n : Rat)
  | .bool b => .bool b
  | .null => .null

/-- An OpenTelemetry attribute value.  `attribute.String(k, string(bytes))`
on freshly marshalled JSON is modelled as `.json` of the marshalled tree. -/
inductive AttrVal where
  | str (s : String)
  | int (n : Int)
  | bool (b : Bool)
  | json (j : Json)

/-- Last-write-wins lookup in an attribute (or header) list, matching the
OpenTelemetry semantics that a later `SetAttributes` on the same key
overrides an earlier one. -/
def lookupLast {α : Type} (l : List (String × α)) (k : String) : Option α :=
  l.foldl (fun acc kv => if kv.1 = k then some kv.2 else acc) none

/-- Configuration for the client (src/langfuse.go lines 34-42). -/
structure Config where
  PublicKey : String
  SecretKey : String
  BaseURL : String
  Release : String
  Environment : String
  IsPublic : Bool
deriving DecidableEq

/-- The parts of a parsed `net/url.URL` that `NewClient` reads. -/
structure URL where
  Scheme : String
  Host : String
deriving DecidableEq

/-- The options handed to the OTLP HTTP exporter constructor
(src/langfuse.go lines 119-131): endpoint, URL path, headers, and whether
`WithInsecure` was appended (scheme `http`). -/
structure ExporterOptions where
  endpoint : String
  urlPath : String
  headers : List (String × String)
  insecure : Bool
deriving DecidableEq

/-- The external OTLP exporter, identified by the options it was created
from; its construction may fail, which is modelled by an error oracle. -/
structure Exporter where
  options : ExporterOptions
deriving DecidableEq

/-- The external tracer provider, wrapping the exporter it batches for. -/
structure Provider where
  exporter : Exporter
deriving DecidableEq

/-- The Langfuse client (src/langfuse.go lines 22-32); the opaque tracer
handle is summarised by the provider. -/
structure Client where
  provider : Provider
  publicKey : String
  secretKey : String
  baseURL : String
  release : String
  environment : String
  isPublic : Bool
deriving DecidableEq

/-- The default base URL (src/langfuse.go line 95). -/
def defaultBaseURL : String := "https://cloud.langfuse.com"

/-- `config.BaseURL` after the empty-string default is applied
(src/langfuse.go lines 94-96). -/
def defaultedBaseURL (config : Config) : String :=
  if config.BaseURL = "" then defaultBaseURL else config.BaseURL

/-- The scheme-normalized base URL handed to `url.Parse`
(src/langfuse.go lines 99-102). -/
def normalizedBaseURL (config : Config) : String :=
  let baseURL := defaultedBaseURL config
  if !(baseURL.startsWith "http://") && !(baseURL.startsWith "https://") then
    "https://" ++ baseURL
  else
    baseURL

/-- The exporter options built by `NewClient` (src/langfuse.go lines
113-131) from the accepted config and the parsed URL. -/
def buildExporterOptions (config : Config) (u : URL) : ExporterOptions :=
  { endpoint := u.Host
    urlPath := "/api/public/otel/v1/traces"
    headers := [("Authorization", "Basic " ++ encodeBasicAuth config.PublicKey config.SecretKey)]
    insecure := u.Scheme == "http" }

/-- Shallow embedding of `NewClient` (src/langfuse.go lines 89-165).
The two external effects are oracles: `urlParse` models `url.Parse` and
`exporterErr` models failure of `otlptracehttp.New` (returning `some e`
when creation fails).  Debug printing and the global
`otel.SetTracerProvider` call have no observable effect on the result. -/
def NewClient (config : Config) (urlParse : String → Except String URL)
    (exporterErr : ExporterOptions → Option String) : Except String Client :=
  if config.PublicKey = "" ∨ config.SecretKey = "" then
    .error "public key and secret key are required"
  else
    match urlParse (normalizedBaseURL config) with
    | .error e => .error ("invalid base URL: " ++ e)
    | .ok u =>
      let opts := buildExporterOptions config u
      match exporterErr opts with
      | some e => .error ("failed to create OTLP exporter: " ++ e)
      | none =>
        .ok { provider := ⟨⟨opts⟩⟩
              publicKey := config.PublicKey
              secretKey := config.SecretKey
              baseURL := defaultedBaseURL config
              release := config.Release
              environment := config.Environment
              isPublic := config.IsPublic }

/-- OpenTelemetry status codes used by the wrapper (`codes.Ok`,
`codes.Error`; spans start unset). -/
inductive OtelStatusCode where
  | unset
  | ok
  | error
deriving DecidableEq

/-- The observable state of an OpenTelemetry span as driven by the wrapper:
its name, accumulated attributes, last requested status, and whether `End`
has been called. -/
structure SpanState where
  name : String
  attrs : List (String × AttrVal)
  status : OtelStatusCode
  ended : Bool

/-- `tracer.Start`: a fresh span with no attributes, unset status, not
ended. -/
def startSpan (name : String) : SpanState :=
  { name := name, attrs := [], status := .unset, ended := false }

/-- `span.SetAttributes`: appends the given key/value pairs. -/
def setAttrs (s : SpanState) (kvs : List (String × AttrVal)) : SpanState :=
  { s with attrs := s.attrs ++ kvs }

/-- `span.SetStatus`, modelled as last-call-wins on the requested code. -/
def setStatus (s : SpanState) (c : OtelStatusCode) : SpanState :=
  { s with status := c }

/-- `span.End`. -/
def endSpan (s : SpanState) : SpanState :=
  { s with ended := true }

/-- The log-level constants (src/langfuse.go lines 78-86); `LogLevel` is a
Go string type, so arbitrary strings are valid values. -/
def LogLevelDebug : String := "DEBUG"

def LogLevelDefault : String := "DEFAULT"

def LogLevelWarning : String := "WARNING"

def LogLevelError : String := "ERROR"

/-- The status code the level-option switch requests (src/langfuse.go lines
313-320 and 484-491): `Error` for `LogLevelError` and `LogLevelWarning`,
`Ok` for every other value (the `default` branch). -/
def levelStatus (level : String) : OtelStatusCode :=
  if level = LogLevelError then .error
  else if level = LogLevelWarning then .error
  else .ok

/-- A Langfuse trace (src/langfuse.go lines 172-178); the context and the
derived trace ID are opaque and omitted. -/
structure Trace where
  client : Client
  span : SpanState

/-- The trace options of src/langfuse.go lines 216-263, as the data each
constructor closes over. -/
inductive TraceOption where
  | withTraceUserID (userID : String)
  | withTraceSessionID (sessionID : String)
  | withTraceTags (tags : List String)
  | withTraceMetadata (metadata : List (String × GoValue))
  | withTraceInput (input : GoValue)
  | withTraceOutput (output : GoValue)

/-- The shared metadata loop (src/langfuse.go lines 241-245, 283-287,
462-466): for each entry whose value type-asserts to `string`, set one
attribute with the prefixed key; other entries do nothing. -/
def setMetadataAttrs (pfx : String) (metadata : List (String × GoValue))
    (s : SpanState) : SpanState :=
  metadata.foldl
    (fun sp kv =>
      match kv.2 with
      | .str str => setAttrs sp [(pfx ++ kv.1, .str str)]
      | _ => sp)
    s

def applyTraceOption (t : Trace) (o : TraceOption) : Trace :=
  match o with
  | .withTraceUserID userID =>
      { t with span := setAttrs t.span [("langfuse.user.id", .str userID)] }
  | .withTraceSessionID sessionID =>
      { t with span := setAttrs t.span [("langfuse.session.id", .str sessionID)] }
  | .withTraceTags tags =>
      { t with span :=
          setAttrs t.span [("langfuse.trace.tags", .json (.arr (tags.map .str)))] }
  | .withTraceMetadata metadata =>
      { t with span := setMetadataAttrs "langfuse.trace.metadata." metadata t.span }
  | .withTraceInput input =>
      { t with span :=
          setAttrs t.span [("langfuse.trace.input", .json (marshalValue input))] }
  | .withTraceOutput output =>
      { t with span :=
          setAttrs t.span [("langfuse.trace.output", .json (marshalValue output))] }

/-- Shallow embedding of `CreateTrace` (src/langfuse.go lines 180-211):
start a span, conditionally attach release/environment/public attributes,
then apply the options in order. -/
def CreateTrace (c : Client) (name : String) (opts : List TraceOption) : Trace :=
  let attrs : List (String × AttrVal) :=
    (if c.release ≠ "" then [("langfuse.release", .str c.release)] else []) ++
    (if c.environment ≠ "" then [("langfuse.environment", .str c.environment)] else []) ++
    (if c.isPublic then [("langfuse.trace.public", .bool c.isPublic)] else [])
  let t : Trace := { client := c, span := setAttrs (startSpan name) attrs }
  opts.foldl applyTraceOption t

/-- A Langfuse span observation (src/langfuse.go lines 270-275). -/
structure Span where
  trace : Trace
  span : SpanState

/-- The span options of src/langfuse.go lines 280-322. -/
inductive SpanOption where
  | withSpanMetadata (metadata : List (String × GoValue))
  | withSpanInput (input : GoValue)
  | withSpanOutput (output : GoValue)
  | withSpanLevel (level : String)

def applySpanOption (s : Span) (o : SpanOption) : Span :=
  match o with
  | .withSpanMetadata metadata =>
      { s with span := setMetadataAttrs "langfuse.observation.metadata." metadata s.span }
  | .withSpanInput input =>
      { s with span :=
          setAttrs s.span [("langfuse.observation.input", .json (marshalValue input))] }
  | .withSpanOutput output =>
      { s with span :=
          setAttrs s.span [("langfuse.observation.output", .json (marshalValue output))] }
  | .withSpanLevel level =>
      { s with span :=
          setStatus (setAttrs s.span [("langfuse.observation.level", .str level)]) (levelStatus level) }

/-- Shallow embedding of `CreateSpan` (src/langfuse.go lines 324-343). -/
def CreateSpan (t : Trace) (name : String) (opts : List SpanOption) : Span :=
  let sp := setAttrs (startSpan name) [("langfuse.observation.type", .str "span")]
  opts.foldl applySpanOption { trace := t, span := sp }

/-- Token usage (src/langfuse.go lines 44-49); all three fields are Go
`int` with `omitempty`. -/
structure Usage where
  PromptTokens : Int
  CompletionTokens : Int
  TotalTokens : Int
deriving DecidableEq

/-- Cost information (src/langfuse.go lines 51-56); the Go `float64`
fields are modelled as rationals, all with `omitempty`. -/
structure Cost where
  Total : Rat
  Input : Rat
  Output : Rat
deriving DecidableEq

/-- Generation parameters (src/langfuse.go lines 58-67); pointer fields are
options, `Stop` is a slice with `omitempty`, and `Other` carries the JSON
tag `-`. -/
structure GenerationParams where
  Temperature : Option Rat
  MaxTokens : Option Int
  TopP : Option Rat
  FrequencyPenalty : Option Rat
  PresencePenalty : Option Rat
  Stop : List String
  Other : List (String × GoValue)
deriving DecidableEq

/-- `json.Marshal` of `Usage`: each `omitempty` int field is emitted
exactly when non-zero, in declaration order. -/
def marshalUsage (u : Usage) : Json :=
  .obj ((if u.PromptTokens = 0 then [] else [("prompt_tokens", .num (u.PromptTokens : Rat))]) ++
        (if u.CompletionTokens = 0 then [] else [("completion_tokens", .num (u.CompletionTokens : Rat))]) ++
        (if u.TotalTokens = 0 then [] else [("total_tokens", .num (u.TotalTokens : Rat))]))

/-- `json.Marshal` of `Cost`: each `omitempty` float field is emitted
exactly when non-zero, in declaration order. -/
def marshalCost (c : Cost) : Json :=
  .obj ((if c.Total = 0 then [] else [("total", .num c.Total)]) ++
        (if c.Input = 0 then [] else [("input", .num c.Input)]) ++
        (if c.Output = 0 then [] else [("output", .num c.Output)]))

/-- One optional rational-valued JSON field: a nil pointer with `omitempty`
is omitted; a non-nil pointer is emitted whatever it points to. -/
def optRatField (k : String) (v : Option Rat) : List (String × Json) :=
  match v with
  | none => []
  | some q => [(k, .num q)]

/-- One optional integer-valued JSON field. -/
def optIntField (k : String) (v : Option Int) : List (String × Json) :=
  match v with
  | none => []
  | some n => [(k, .num (n : Rat))]

/-- `json.Marshal` of `GenerationParams`: pointer fields are emitted exactly
when non-nil, `stop` exactly when the slice is non-empty, and `Other` never
(its JSON tag is `-`). -/
def marshalParams (p : GenerationParams) : Json :=
  .obj (optRatField "temperature" p.Temperature ++
        optIntField "max_tokens" p.MaxTokens ++
        optRatField "top_p" p.TopP ++
        optRatField "frequency_penalty" p.FrequencyPenalty ++
        optRatField "presence_penalty" p.PresencePenalty ++
        (if p.Stop = [] then [] else [("stop", .arr (p.Stop.map .str))]))

/-- A Langfuse generation observation (src/langfuse.go lines 350-355). -/
structure Generation where
  trace : Trace
  span : SpanState

/-- The generation options of src/langfuse.go lines 360-422; the start-time
option closes over the already RFC3339-formatted time string. -/
inductive GenerationOption where
  | withGenerationModel (model : String)
  | withGenerationUsage (usage : Usage)
  | withGenerationCost (cost : Cost)
  | withGenerationParams (params : GenerationParams)
  | withGenerationInput (input : GoValue)
  | withGenerationOutput (output : GoValue)
  | withGenerationStartTime (startTimeRFC3339 : String)
  | withGenerationPrompt (name : String) (version : Int)

def applyGenerationOption (g : Generation) (o : GenerationOption) : Generation :=
  match o with
  | .withGenerationModel model =>
      { g with span := setAttrs g.span [("langfuse.observation.model.name", .str model)] }
  | .withGenerationUsage usage =>
      { g with span :=
          setAttrs g.span [("langfuse.observation.usage_details", .json (marshalUsage usage))] }
  | .withGenerationCost cost =>
      { g with span :=
          setAttrs g.span [("langfuse.observation.cost_details", .json (marshalCost cost))] }
  | .withGenerationParams params =>
      { g with span :=
          setAttrs g.span [("langfuse.observation.model.parameters", .json (marshalParams params))] }
  | .withGenerationInput input =>
      { g with span :=
          setAttrs g.span [("langfuse.observation.input", .json (marshalValue input))] }
  | .withGenerationOutput output =>
      { g with span :=
          setAttrs g.span [("langfuse.observation.output", .json (marshalValue output))] }
  | .withGenerationStartTime startTimeRFC3339 =>
      { g with span :=
          setAttrs g.span [("langfuse.observation.completion_start_time", .str startTimeRFC3339)] }
  | .withGenerationPrompt name version =>
      { g with span :=
          setAttrs g.span [("langfuse.observation.prompt.name", .str name),
           ("langfuse.observation.prompt.version", .int version)] }

/-- Shallow embedding of `CreateGeneration` (src/langfuse.go lines 424-443). -/
def CreateGeneration (t : Trace) (name : String) (opts : List GenerationOption) :
    Generation :=
  let sp := setAttrs (startSpan name) [("langfuse.observation.type", .str "generation")]
  opts.foldl applyGenerationOption { trace := t, span := sp }

/-- A Langfuse event observation (src/langfuse.go lines 450-454).  `Event`
has no `End` method of its own. -/
structure Event where
  trace : Trace
  span : SpanState

/-- The event options of src/langfuse.go lines 459-493. -/
inductive EventOption where
  | withEventMetadata (metadata : List (String × GoValue))
  | withEventInput (input : GoValue)
  | withEventLevel (level : String)

def applyEventOption (e : Event) (o : EventOption) : Event :=
  match o with
  | .withEventMetadata metadata =>
      { e with span := setMetadataAttrs "langfuse.observation.metadata." metadata e.span }
  | .withEventInput input =>
      { e with span :=
          setAttrs e.span [("langfuse.observation.input", .json (marshalValue input))] }
  | .withEventLevel level =>
      { e with span :=
          setStatus (setAttrs e.span [("langfuse.observation.level", .str level)]) (levelStatus level) }

/-- Shallow embedding of `CreateEvent` (src/langfuse.go lines 495-516):
start a span, set the type attribute, apply the options, then end the span
before returning. -/
def CreateEvent (t : Trace) (name : String) (opts : List EventOption) : Event :=
  let sp := setAttrs (startSpan name) [("langfuse.observation.type", .str "event")]
  let e := opts.foldl applyEventOption { trace := t, span := sp }
  { e with span := endSpan e.span }

/-- The attribute entries the metadata loop produces: exactly the entries
whose value is a string, key-prefixed. -/
def stringEntries (pfx : String) (metadata : List (String × GoValue)) :
    List (String × AttrVal) :=
  metadata.filterMap
    (fun kv =>
      match kv.2 with
      | .str s => some (pfx ++ kv.1, .str s)
      | _ => none)

/-- First-match field lookup in a marshalled JSON object. -/
def jsonField (j : Json) (k : String) : Option Json :=
  match j with
  | .obj fields => (fields.find? (fun kv => kv.1 == k)).map (fun kv => kv.2)
  | _ => none

/-- A generation-parameters value whose `Other` map is non-empty. -/
def paramsOtherA : GenerationParams :=
  { Temperature := some 1, MaxTokens := some 100, TopP := none,
    FrequencyPenalty := none, PresencePenalty := none,
    Stop := ["end"], Other := [("vendor", .str "x")] }

/-- The same value with `Other` emptied. -/
def paramsOtherB : GenerationParams :=
  { paramsOtherA with Other := [] }

/-- A parsed URL for a successful parse oracle. -/
def okURL : URL := { Scheme := "https", Host := "cloud.langfuse.com" }

/-- A `url.Parse` oracle that always succeeds with `okURL`. -/
def okParse : String → Except String URL := fun _ => .ok okURL

/-- An exporter-construction oracle that never fails. -/
def noExporterFailure : ExporterOptions → Option String := fun _ => none

/-- A fully populated configuration. -/
def cfgFull : Config :=
  { PublicKey := "pk", SecretKey := "sk", BaseURL := "https://example.com",
    Release := "1.0.0", Environment := "dev", IsPublic := true }

/-- A configuration with an empty public key. -/
def cfgNoKeys : Config :=
  { PublicKey := "", SecretKey := "sk", BaseURL := "", Release := "",
    Environment := "", IsPublic := false }

/-- A valid configuration whose `BaseURL` is empty. -/
def cfgEmptyBase : Config :=
  { PublicKey := "pk", SecretKey := "sk", BaseURL := "", Release := "r",
    Environment := "e", IsPublic := true }

/-- The client `NewClient` builds from `cfgFull` with the successful
oracles. -/
def clientFull : Client :=
  { provider := ⟨⟨buildExporterOptions cfgFull okURL⟩⟩, publicKey := "pk",
    secretKey := "sk", baseURL := "https://example.com", release := "1.0.0",
    environment := "dev", isPublic := true }

theorem alphabet_eq : base64Chars = rfc4648Alphabet := rfl

theorem and63_eq (b : Nat) (h : b < 256) : b &&& 0x3F = b % 64 := by
  have key : ∀ x : Fin 256, x.val &&& 0x3F = x.val % 64 := by decide
  exact key ⟨b, h⟩

theorem shr2_and (b : Nat) (h : b < 256) : (b >>> 2) &&& 0x3F = b / 4 := by
  have key : ∀ x : Fin 256, (x.val >>> 2) &&& 0x3F = x.val / 4 := by decide
  exact key ⟨b, h⟩

theorem and3_shl4 (b : Nat) (h : b < 256) : (b &&& 0x03) <<< 4 = b % 4 * 16 := by
  have key : ∀ x : Fin 256, (x.val &&& 0x03) <<< 4 = x.val % 4 * 16 := by decide
  exact key ⟨b, h⟩

theorem shr4_and (b : Nat) (h : b < 256) : (b >>> 4) &&& 0x0F = b / 16 := by
  have key : ∀ x : Fin 256, (x.val >>> 4) &&& 0x0F = x.val / 16 := by decide
  exact key ⟨b, h⟩

theorem and15_shl2 (b : Nat) (h : b < 256) : (b &&& 0x0F) <<< 2 = b % 16 * 4 := by
  have key : ∀ x : Fin 256, (x.val &&& 0x0F) <<< 2 = x.val % 16 * 4 := by decide
  exact key ⟨b, h⟩

theorem shr6_and (b : Nat) (h : b < 256) : (b >>> 6) &&& 0x03 = b / 64 := by
  have key : ∀ x : Fin 256, (x.val >>> 6) &&& 0x03 = x.val / 64 := by decide
  exact key ⟨b, h⟩

theorem or_mul16 (x y : Nat) (hx : x < 4) (hy : y < 16) :
    x * 16 ||| y = x * 16 + y := by
  have key : ∀ (a : Fin 4) (b : Fin 16), a.val * 16 ||| b.val = a.val * 16 + b.val := by
    decide
  exact key ⟨x, hx⟩ ⟨y, hy⟩

theorem or_mul4 (x y : Nat) (hx : x < 16) (hy : y < 4) :
    x * 4 ||| y = x * 4 + y := by
  have key : ∀ (a : Fin 16) (b : Fin 4), a.val * 4 ||| b.val = a.val * 4 + b.val := by
    decide
  exact key ⟨x, hx⟩ ⟨y, hy⟩

theorem idx1_eq (b1 b2 b3 : Nat) (h1 : b1 < 256) (h2 : b2 < 256) (h3 : b3 < 256) :
    (b1 >>> 2) &&& 0x3F = (b1 * 65536 + b2 * 256 + b3) / 262144 % 64 := by
  rw [shr2_and b1 h1]
  omega

theorem idx2_eq (b1 b2 b3 : Nat) (h1 : b1 < 256) (h2 : b2 < 256) (h3 : b3 < 256) :
    ((b1 &&& 0x03) <<< 4) ||| ((b2 >>> 4) &&& 0x0F) =
      (b1 * 65536 + b2 * 256 + b3) / 4096 % 64 := by
  rw [and3_shl4 b1 h1, shr4_and b2 h2, or_mul16 (b1 % 4) (b2 / 16) (by omega) (by omega)]
  omega

theorem idx3_eq (b1 b2 b3 : Nat) (h1 : b1 < 256) (h2 : b2 < 256) (h3 : b3 < 256) :
    ((b2 &&& 0x0F) <<< 2) ||| ((b3 >>> 6) &&& 0x03) =
      (b1 * 65536 + b2 * 256 + b3) / 64 % 64 := by
  rw [and15_shl2 b2 h2, shr6_and b3 h3, or_mul4 (b2 % 16) (b3 / 64) (by omega) (by omega)]
  omega

theorem idx4_eq (b1 b2 b3 : Nat) (h1 : b1 < 256) (h2 : b2 < 256) (h3 : b3 < 256) :
    b3 &&& 0x3F = (b1 * 65536 + b2 * 256 + b3) % 64 := by
  rw [and63_eq b3 h3]
  omega

theorem base64Encode_eq_rfc4648 (data : List Nat) :
    (∀ b ∈ data, b < 256) → base64Encode data = rfc4648Encode data := by
  induction data using base64Encode.induct with
  | case1 => intro _; rfl
  | case2 b1 =>
      intro h
      have h1 : b1 < 256 := h b1 (by simp)
      simp only [base64Encode, rfc4648Encode, alphabet_eq]
      rw [idx1_eq b1 0 0 h1 (by omega) (by omega), idx2_eq b1 0 0 h1 (by omega) (by omega)]
      norm_num
  | case3 b1 b2 =>
      intro h
      have h1 : b1 < 256 := h b1 (by simp)
      have h2 : b2 < 256 := h b2 (by simp)
      simp only [base64Encode, rfc4648Encode, alphabet_eq]
      rw [idx1_eq b1 b2 0 h1 h2 (by omega), idx2_eq b1 b2 0 h1 h2 (by omega),
        idx3_eq b1 b2 0 h1 h2 (by omega)]
      norm_num
  | case4 b1 b2 b3 rest ih =>
      intro h
      have h1 : b1 < 256 := h b1 (by simp)
      have h2 : b2 < 256 := h b2 (by simp)
      have h3 : b3 < 256 := h b3 (by simp)
      have hrest : ∀ b ∈ rest, b < 256 := fun b hb => h b (by simp [hb])
      simp only [base64Encode, rfc4648Encode, alphabet_eq]
      rw [idx1_eq b1 b2 b3 h1 h2 h3, idx2_eq b1 b2 b3 h1 h2 h3,
        idx3_eq b1 b2 b3 h1 h2 h3, idx4_eq b1 b2 b3 h1 h2 h3, ih hrest]

theorem base64Encode_length (data : List Nat) :
    (base64Encode data).length = 4 * ((data.length + 2) / 3) := by
  induction data using base64Encode.induct with
  | case1 => rfl
  | case2 b1 => simp [base64Encode]
  | case3 b1 b2 => simp [base64Encode]
  | case4 b1 b2 b3 rest ih =>
      simp only [base64Encode, List.length_cons, ih, List.length]
      omega

/-- C1: for every byte sequence, the hand-rolled `base64Encode` returns
exactly the RFC 4648 base64 encoding of that sequence, including `=` padding,
and its output length is `4 * ceil(n / 3)`. -/
theorem base64Encode_is_rfc4648 (data : List Nat) (h : ∀ b ∈ data, b < 256) :
    base64Encode data = rfc4648Encode data ∧
    (base64Encode data).length = 4 * ((data.length + 2) / 3) :=
  ⟨base64Encode_eq_rfc4648 data h, base64Encode_length data⟩

/-- Witness for C1 at the concrete input `[77, 97, 110, 107]` (the bytes of
"Mank"). -/
theorem base64Encode_is_rfc4648_witness :
    (∀ b ∈ ([77, 97, 110, 107] : List Nat), b < 256) ∧
    (base64Encode [77, 97, 110, 107] = rfc4648Encode [77, 97, 110, 107] ∧
     (base64Encode [77, 97, 110, 107]).length =
       4 * ((([77, 97, 110, 107] : List Nat).length + 2) / 3)) :=
  ⟨by decide, base64Encode_is_rfc4648 [77, 97, 110, 107] (by decide)⟩

theorem lookupLast_extend {α : Type} (l : List (String × α)) (k : String)
    (acc : Option α) (h : ∀ kv ∈ l, kv.1 ≠ k) :
    l.foldl (fun acc kv => if kv.1 = k then some kv.2 else acc) acc = acc := by
  induction l generalizing acc with
  | nil => rfl
  | cons kv rest ih =>
      rw [List.foldl_cons, if_neg (h kv (by simp))]
      exact ih acc (fun kv hkv => h kv (by simp [hkv]))

theorem lookupLast_append {α : Type} (l l' : List (String × α)) (k : String)
    (h : ∀ kv ∈ l', kv.1 ≠ k) :
    lookupLast (l ++ l') k = lookupLast l k := by
  unfold lookupLast
  rw [List.foldl_append]
  exact lookupLast_extend l' k _ h

theorem lookupLast_append_last {α : Type} (l : List (String × α)) (k : String)
    (v : α) : lookupLast (l ++ [(k, v)]) k = some v := by
  unfold lookupLast
  rw [List.foldl_append]
  simp

theorem prefix_append_ne (pfx k x : String) (h : k.length < pfx.length) :
    pfx ++ x ≠ k := by
  intro he
  have hl := congrArg String.length he
  rw [String.length_append] at hl
  omega

theorem setMetadataAttrs_attrs (pfx : String) (md : List (String × GoValue)) :
    ∀ s : SpanState, (setMetadataAttrs pfx md s).attrs = s.attrs ++ stringEntries pfx md := by
  unfold setMetadataAttrs
  induction md with
  | nil => intro s; simp [stringEntries]
  | cons kv rest ih =>
      intro s
      obtain ⟨key, v⟩ := kv
      cases v with
      | str sv =>
          rw [List.foldl_cons]
          simp only []
          rw [ih]
          simp [setAttrs, stringEntries, List.filterMap_cons]
      | int n =>
          rw [List.foldl_cons]
          simp only []
          rw [ih]
          simp [stringEntries, List.filterMap_cons]
      | bool b =>
          rw [List.foldl_cons]
          simp only []
          rw [ih]
          simp [stringEntries, List.filterMap_cons]
      | null =>
          rw [List.foldl_cons]
          simp only []
          rw [ih]
          simp [stringEntries, List.filterMap_cons]

theorem lookupLast_setMetadataAttrs (pfx : String) (md : List (String × GoValue))
    (s : SpanState) (k : String) (h : ∀ x, pfx ++ x ≠ k) :
    lookupLast (setMetadataAttrs pfx md s).attrs k = lookupLast s.attrs k := by
  rw [setMetadataAttrs_attrs]
  apply lookupLast_append
  intro kv hkv
  rcases List.mem_filterMap.mp hkv with ⟨a, _, ha⟩
  rcases a with ⟨ak, av⟩
  cases av with
  | str sv =>
      simp only [] at ha
      cases ha
      exact h ak
  | int n => simp at ha
  | bool b => simp at ha
  | null => simp at ha

/-- C4: for every trace and every set of event options, `CreateEvent` ends
the underlying span before it returns: the returned `Event`'s span is
already ended at creation time, and the embedded `Event` type has no
operation that ends or extends it later. -/
theorem createEvent_span_ended (t : Trace) (name : String)
    (opts : List EventOption) : (CreateEvent t name opts).span.ended = true := rfl

theorem applyTraceOption_preserves (t : Trace) (o : TraceOption) (k : String)
    (h1 : "langfuse.user.id" ≠ k) (h2 : "langfuse.session.id" ≠ k)
    (h3 : "langfuse.trace.tags" ≠ k) (h4 : "langfuse.trace.input" ≠ k)
    (h5 : "langfuse.trace.output" ≠ k)
    (hm : ∀ x, "langfuse.trace.metadata." ++ x ≠ k) :
    lookupLast (applyTraceOption t o).span.attrs k = lookupLast t.span.attrs k := by
  cases o with
  | withTraceUserID u =>
      simp only [applyTraceOption, setAttrs]
      exact lookupLast_append _ _ _ (by simp [h1])
  | withTraceSessionID sid =>
      simp only [applyTraceOption, setAttrs]
      exact lookupLast_append _ _ _ (by simp [h2])
  | withTraceTags tags =>
      simp only [applyTraceOption, setAttrs]
      exact lookupLast_append _ _ _ (by simp [h3])
  | withTraceMetadata md =>
      simp only [applyTraceOption]
      exact lookupLast_setMetadataAttrs _ _ _ _ hm
  | withTraceInput input =>
      simp only [applyTraceOption, setAttrs]
      exact lookupLast_append _ _ _ (by simp [h4])
  | withTraceOutput output =>
      simp only [applyTraceOption, setAttrs]
      exact lookupLast_append _ _ _ (by simp [h5])

theorem foldl_traceOption_preserves (opts : List TraceOption) (t : Trace)
    (k : String)
    (h1 : "langfuse.user.id" ≠ k) (h2 : "langfuse.session.id" ≠ k)
    (h3 : "langfuse.trace.tags" ≠ k) (h4 : "langfuse.trace.input" ≠ k)
    (h5 : "langfuse.trace.output" ≠ k)
    (hm : ∀ x, "langfuse.trace.metadata." ++ x ≠ k) :
    lookupLast (opts.foldl applyTraceOption t).span.attrs k =
      lookupLast t.span.attrs k := by
  induction opts generalizing t with
  | nil => rfl
  | cons o rest ih =>
      rw [List.foldl_cons, ih (applyTraceOption t o),
        applyTraceOption_preserves t o k h1 h2 h3 h4 h5 hm]

theorem applySpanOption_preserves (s : Span) (o : SpanOption) (k : String)
    (h1 : "langfuse.observation.input" ≠ k)
    (h2 : "langfuse.observation.output" ≠ k)
    (h3 : "langfuse.observation.level" ≠ k)
    (hm : ∀ x, "langfuse.observation.metadata." ++ x ≠ k) :
    lookupLast (applySpanOption s o).span.attrs k = lookupLast s.span.attrs k := by
  cases o with
  | withSpanMetadata md =>
      simp only [applySpanOption]
      exact lookupLast_setMetadataAttrs _ _ _ _ hm
  | withSpanInput input =>
      simp only [applySpanOption, setAttrs]
      exact lookupLast_append _ _ _ (by simp [h1])
  | withSpanOutput output =>
      simp only [applySpanOption, setAttrs]
      exact lookupLast_append _ _ _ (by simp [h2])
  | withSpanLevel level =>
      simp only [applySpanOption, setAttrs, setStatus]
      exact lookupLast_append _ _ _ (by simp [h3])

theorem foldl_spanOption_preserves (opts : List SpanOption) (s : Span)
    (k : String)
    (h1 : "langfuse.observation.input" ≠ k)
    (h2 : "langfuse.observation.output" ≠ k)
    (h3 : "langfuse.observation.level" ≠ k)
    (hm : ∀ x, "langfuse.observation.metadata." ++ x ≠ k) :
    lookupLast (opts.foldl applySpanOption s).span.attrs k =
      lookupLast s.span.attrs k := by
  induction opts generalizing s with
  | nil => rfl
  | cons o rest ih =>
      rw [List.foldl_cons, ih (applySpanOption s o),
        applySpanOption_preserves s o k h1 h2 h3 hm]

theorem applyGenerationOption_preserves (g : Generation) (o : GenerationOption)
    (k : String)
    (h1 : "langfuse.observation.model.name" ≠ k)
    (h2 : "langfuse.observation.usage_details" ≠ k)
    (h3 : "langfuse.observation.cost_details" ≠ k)
    (h4 : "langfuse.observation.model.parameters" ≠ k)
    (h5 : "langfuse.observation.input" ≠ k)
    (h6 : "langfuse.observation.output" ≠ k)
    (h7 : "langfuse.observation.completion_start_time" ≠ k)
    (h8 : "langfuse.observation.prompt.name" ≠ k)
    (h9 : "langfuse.observation.prompt.version" ≠ k) :
    lookupLast (applyGenerationOption g o).span.attrs k =
      lookupLast g.span.attrs k := by
  cases o with
  | withGenerationModel model =>
      simp only [applyGenerationOption, setAttrs]
      exact lookupLast_append _ _ _ (by simp [h1])
  | withGenerationUsage usage =>
      simp only [applyGenerationOption, setAttrs]
      exact lookupLast_append _ _ _ (by simp [h2])
  | withGenerationCost cost =>
      simp only [applyGenerationOption, setAttrs]
      exact lookupLast_append _ _ _ (by simp [h3])
  | withGenerationParams params =>
      simp only [applyGenerationOption, setAttrs]
      exact lookupLast_append _ _ _ (by simp [h4])
  | withGenerationInput input =>
      simp only [applyGenerationOption, setAttrs]
      exact lookupLast_append _ _ _ (by simp [h5])
  | withGenerationOutput output =>
      simp only [applyGenerationOption, setAttrs]
      exact lookupLast_append _ _ _ (by simp [h6])
  | withGenerationStartTime st =>
      simp only [applyGenerationOption, setAttrs]
      exact lookupLast_append _ _ _ (by simp [h7])
  | withGenerationPrompt pname pversion =>
      simp only [applyGenerationOption, setAttrs]
      exact lookupLast_append _ _ _ (by simp [h8, h9])

theorem foldl_generationOption_preserves (opts : List GenerationOption)
    (g : Generation) (k : String)
    (h1 : "langfuse.observation.model.name" ≠ k)
    (h2 : "langfuse.observation.usage_details" ≠ k)
    (h3 : "langfuse.observation.cost_details" ≠ k)
    (h4 : "langfuse.observation.model.parameters" ≠ k)
    (h5 : "langfuse.observation.input" ≠ k)
    (h6 : "langfuse.observation.output" ≠ k)
    (h7 : "langfuse.observation.completion_start_time" ≠ k)
    (h8 : "langfuse.observation.prompt.name" ≠ k)
    (h9 : "langfuse.observation.prompt.version" ≠ k) :
    lookupLast (opts.foldl applyGenerationOption g).span.attrs k =
      lookupLast g.span.attrs k := by
  induction opts generalizing g with
  | nil => rfl
  | cons o rest ih =>
      rw [List.foldl_cons, ih (applyGenerationOption g o),
        applyGenerationOption_preserves g o k h1 h2 h3 h4 h5 h6 h7 h8 h9]

theorem applyEventOption_preserves (e : Event) (o : EventOption) (k : String)
    (h1 : "langfuse.observation.input" ≠ k)
    (h2 : "langfuse.observation.level" ≠ k)
    (hm : ∀ x, "langfuse.observation.metadata." ++ x ≠ k) :
    lookupLast (applyEventOption e o).span.attrs k = lookupLast e.span.attrs k := by
  cases o with
  | withEventMetadata md =>
      simp only [applyEventOption]
      exact lookupLast_setMetadataAttrs _ _ _ _ hm
  | withEventInput input =>
      simp only [applyEventOption, setAttrs]
      exact lookupLast_append _ _ _ (by simp [h1])
  | withEventLevel level =>
      simp only [applyEventOption, setAttrs, setStatus]
      exact lookupLast_append _ _ _ (by simp [h2])

theorem foldl_eventOption_preserves (opts : List EventOption) (e : Event)
    (k : String)
    (h1 : "langfuse.observation.input" ≠ k)
    (h2 : "langfuse.observation.level" ≠ k)
    (hm : ∀ x, "langfuse.observation.metadata." ++ x ≠ k) :
    lookupLast (opts.foldl applyEventOption e).span.attrs k =
      lookupLast e.span.attrs k := by
  induction opts generalizing e with
  | nil => rfl
  | cons o rest ih =>
      rw [List.foldl_cons, ih (applyEventOption e o),
        applyEventOption_preserves e o k h1 h2 hm]

/-- C6: every observation created through the wrapper carries the attribute
`langfuse.observation.type`: `CreateSpan` sets it to `span`,
`CreateGeneration` to `generation`, and `CreateEvent` to `event`, whatever
options are passed. -/
theorem observation_type_attr (t : Trace) (name : String) :
    (∀ opts : List SpanOption,
      lookupLast (CreateSpan t name opts).span.attrs "langfuse.observation.type" =
        some (.str "span")) ∧
    (∀ opts : List GenerationOption,
      lookupLast (CreateGeneration t name opts).span.attrs "langfuse.observation.type" =
        some (.str "generation")) ∧
    (∀ opts : List EventOption,
      lookupLast (CreateEvent t name opts).span.attrs "langfuse.observation.type" =
        some (.str "event")) := by
  refine ⟨fun opts => ?_, fun opts => ?_, fun opts => ?_⟩
  · rw [CreateSpan, foldl_spanOption_preserves opts _ _ (by decide) (by decide)
      (by decide) (fun x => prefix_append_ne _ _ x (by decide))]
    simp [lookupLast, startSpan, setAttrs]
  · rw [CreateGeneration, foldl_generationOption_preserves opts _ _ (by decide)
      (by decide) (by decide) (by decide) (by decide) (by decide) (by decide)
      (by decide) (by decide)]
    simp [lookupLast, startSpan, setAttrs]
  · rw [CreateEvent]
    simp only [endSpan]
    rw [foldl_eventOption_preserves opts _ _ (by decide) (by decide)
      (fun x => prefix_append_ne _ _ x (by decide))]
    simp [lookupLast, startSpan, setAttrs]

theorem levelStatus_eq (level : String) :
    levelStatus level =
      (if level = "ERROR" ∨ level = "WARNING" then .error else .ok) := by
  unfold levelStatus LogLevelError LogLevelWarning
  by_cases h1 : level = "ERROR" <;> by_cases h2 : level = "WARNING" <;>
    simp [h1, h2]

/-- C8: the level options set `langfuse.observation.level` to the level's
string and request OpenTelemetry status `Error` when the level is `ERROR`
or `WARNING`, and `Ok` for every other level, including unrecognized
strings. -/
theorem level_option_level_and_status (level : String) :
    (∀ s : Span,
      lookupLast (applySpanOption s (.withSpanLevel level)).span.attrs
          "langfuse.observation.level" = some (.str level) ∧
      (applySpanOption s (.withSpanLevel level)).span.status =
        (if level = "ERROR" ∨ level = "WARNING" then .error else .ok)) ∧
    (∀ e : Event,
      lookupLast (applyEventOption e (.withEventLevel level)).span.attrs
          "langfuse.observation.level" = some (.str level) ∧
      (applyEventOption e (.withEventLevel level)).span.status =
        (if level = "ERROR" ∨ level = "WARNING" then .error else .ok)) := by
  constructor
  · intro s
    constructor
    · simp only [applySpanOption, setStatus, setAttrs]
      exact lookupLast_append_last _ _ _
    · simp only [applySpanOption, setStatus, setAttrs]
      exact levelStatus_eq level
  · intro e
    constructor
    · simp only [applyEventOption, setStatus, setAttrs]
      exact lookupLast_append_last _ _ _
    · simp only [applyEventOption, setStatus, setAttrs]
      exact levelStatus_eq level

/-- C9: the metadata options attach attributes exactly for the entries
whose value is a string, with the prefixed key; every other entry is
dropped without any error. -/
theorem metadata_options_string_only (md : List (String × GoValue)) :
    (∀ t : Trace,
      (applyTraceOption t (.withTraceMetadata md)).span.attrs =
        t.span.attrs ++ stringEntries "langfuse.trace.metadata." md) ∧
    (∀ s : Span,
      (applySpanOption s (.withSpanMetadata md)).span.attrs =
        s.span.attrs ++ stringEntries "langfuse.observation.metadata." md) ∧
    (∀ e : Event,
      (applyEventOption e (.withEventMetadata md)).span.attrs =
        e.span.attrs ++ stringEntries "langfuse.observation.metadata." md) := by
  refine ⟨fun t => ?_, fun s => ?_, fun e => ?_⟩
  · simp only [applyTraceOption]
    exact setMetadataAttrs_attrs _ _ _
  · simp only [applySpanOption]
    exact setMetadataAttrs_attrs _ _ _
  · simp only [applyEventOption]
    exact setMetadataAttrs_attrs _ _ _

/-- C10: `CreateTrace` attaches `langfuse.release` exactly when the
client's release is non-empty, `langfuse.environment` exactly when the
environment is non-empty, and `langfuse.trace.public` exactly when
`isPublic` is true, whatever options are passed. -/
theorem createTrace_conditional_attrs (c : Client) (name : String)
    (opts : List TraceOption) :
    ((lookupLast (CreateTrace c name opts).span.attrs "langfuse.release").isSome
        ↔ c.release ≠ "") ∧
    ((lookupLast (CreateTrace c name opts).span.attrs "langfuse.environment").isSome
        ↔ c.environment ≠ "") ∧
    ((lookupLast (CreateTrace c name opts).span.attrs "langfuse.trace.public").isSome
        ↔ c.isPublic = true) := by
  refine ⟨?_, ?_, ?_⟩
  · rw [CreateTrace, foldl_traceOption_preserves opts _ _ (by decide) (by decide)
      (by decide) (by decide) (by decide)
      (fun x => prefix_append_ne _ _ x (by decide))]
    by_cases hr : c.release = "" <;> by_cases he : c.environment = "" <;>
      by_cases hp : c.isPublic <;>
      simp [lookupLast, startSpan, setAttrs, hr, he, hp]
  · rw [CreateTrace, foldl_traceOption_preserves opts _ _ (by decide) (by decide)
      (by decide) (by decide) (by decide)
      (fun x => prefix_append_ne _ _ x (by decide))]
    by_cases hr : c.release = "" <;> by_cases he : c.environment = "" <;>
      by_cases hp : c.isPublic <;>
      simp [lookupLast, startSpan, setAttrs, hr, he, hp]
  · rw [CreateTrace, foldl_traceOption_preserves opts _ _ (by decide) (by decide)
      (by decide) (by decide) (by decide)
      (fun x => prefix_append_ne _ _ x (by decide))]
    by_cases hr : c.release = "" <;> by_cases he : c.environment = "" <;>
      by_cases hp : c.isPublic <;>
      simp [lookupLast, startSpan, setAttrs, hr, he, hp]

/-- C7 counterexample: the `Other` field is non-zero in `paramsOtherA` yet
contributes nothing to the serialization (its JSON tag is `-`): two values
differing only in `Other` marshal identically, so the serialization is not
a pure pass-through that only omits zero-valued optional fields. -/
theorem marshalParams_drops_other :
    marshalParams paramsOtherA = marshalParams paramsOtherB ∧
    paramsOtherA.Other = [("vendor", .str "x")] ∧
    paramsOtherB.Other = [] ∧
    paramsOtherA ≠ paramsOtherB := by
  refine ⟨rfl, rfl, rfl, ?_⟩
  intro h
  have hO := congrArg GenerationParams.Other h
  simp [paramsOtherA, paramsOtherB] at hO

/-- C7 (amended): the usage, cost and params options attach exactly the
JSON serialization of the given struct under the documented attribute keys;
the serialization passes each declared field through unmodified, omitting
`omitempty` numeric fields exactly when zero, pointer fields exactly when
nil, `stop` exactly when empty, while `Other` (JSON tag `-`) is always
omitted. -/
theorem generation_json_passthrough (g : Generation) (u : Usage) (c : Cost)
    (p : GenerationParams) :
    lookupLast (applyGenerationOption g (.withGenerationUsage u)).span.attrs
        "langfuse.observation.usage_details" = some (.json (marshalUsage u)) ∧
    lookupLast (applyGenerationOption g (.withGenerationCost c)).span.attrs
        "langfuse.observation.cost_details" = some (.json (marshalCost c)) ∧
    lookupLast (applyGenerationOption g (.withGenerationParams p)).span.attrs
        "langfuse.observation.model.parameters" = some (.json (marshalParams p)) ∧
    jsonField (marshalUsage u) "prompt_tokens" =
      (if u.PromptTokens = 0 then none else some (.num (u.PromptTokens : Rat))) ∧
    jsonField (marshalUsage u) "completion_tokens" =
      (if u.CompletionTokens = 0 then none else some (.num (u.CompletionTokens : Rat))) ∧
    jsonField (marshalUsage u) "total_tokens" =
      (if u.TotalTokens = 0 then none else some (.num (u.TotalTokens : Rat))) ∧
    jsonField (marshalCost c) "total" =
      (if c.Total = 0 then none else some (.num c.Total)) ∧
    jsonField (marshalCost c) "input" =
      (if c.Input = 0 then none else some (.num c.Input)) ∧
    jsonField (marshalCost c) "output" =
      (if c.Output = 0 then none else some (.num c.Output)) ∧
    jsonField (marshalParams p) "temperature" = p.Temperature.map (fun q => .num q) ∧
    jsonField (marshalParams p) "max_tokens" = p.MaxTokens.map (fun n => .num (n : Rat)) ∧
    jsonField (marshalParams p) "top_p" = p.TopP.map (fun q => .num q) ∧
    jsonField (marshalParams p) "frequency_penalty" =
      p.FrequencyPenalty.map (fun q => .num q) ∧
    jsonField (marshalParams p) "presence_penalty" =
      p.PresencePenalty.map (fun q => .num q) ∧
    jsonField (marshalParams p) "stop" =
      (if p.Stop = [] then none else some (.arr (p.Stop.map .str))) ∧
    marshalParams p = marshalParams { p with Other := [] } := by
  obtain ⟨T, M, TP, F, P, St, O⟩ := p
  refine ⟨?_, ?_, ?_, ?_, ?_, ?_, ?_, ?_, ?_, ?_, ?_, ?_, ?_, ?_, ?_, rfl⟩
  · simp only [applyGenerationOption, setAttrs]
    exact lookupLast_append_last _ _ _
  · simp only [applyGenerationOption, setAttrs]
    exact lookupLast_append_last _ _ _
  · simp only [applyGenerationOption, setAttrs]
    exact lookupLast_append_last _ _ _
  · by_cases h1 : u.PromptTokens = 0 <;> simp [marshalUsage, jsonField, h1]
  · by_cases h1 : u.PromptTokens = 0 <;> by_cases h2 : u.CompletionTokens = 0 <;>
      simp [marshalUsage, jsonField, h1, h2]
  · by_cases h1 : u.PromptTokens = 0 <;> by_cases h2 : u.CompletionTokens = 0 <;>
      by_cases h3 : u.TotalTokens = 0 <;> simp [marshalUsage, jsonField, h1, h2, h3]
  · by_cases h1 : c.Total = 0 <;> simp [marshalCost, jsonField, h1]
  · by_cases h1 : c.Total = 0 <;> by_cases h2 : c.Input = 0 <;>
      simp [marshalCost, jsonField, h1, h2]
  · by_cases h1 : c.Total = 0 <;> by_cases h2 : c.Input = 0 <;>
      by_cases h3 : c.Output = 0 <;> simp [marshalCost, jsonField, h1, h2, h3]
  · cases T <;> cases M <;> cases TP <;> cases F <;> cases P <;>
      by_cases hS : St = [] <;>
      simp [marshalParams, jsonField, optRatField, optIntField, hS]
  · cases T <;> cases M <;> cases TP <;> cases F <;> cases P <;>
      by_cases hS : St = [] <;>
      simp [marshalParams, jsonField, optRatField, optIntField, hS]
  · cases T <;> cases M <;> cases TP <;> cases F <;> cases P <;>
      by_cases hS : St = [] <;>
      simp [marshalParams, jsonField, optRatField, optIntField, hS]
  · cases T <;> cases M <;> cases TP <;> cases F <;> cases P <;>
      by_cases hS : St = [] <;>
      simp [marshalParams, jsonField, optRatField, optIntField, hS]
  · cases T <;> cases M <;> cases TP <;> cases F <;> cases P <;>
      by_cases hS : St = [] <;>
      simp [marshalParams, jsonField, optRatField, optIntField, hS]
  · cases T <;> cases M <;> cases TP <;> cases F <;> cases P <;>
      by_cases hS : St = [] <;>
      simp [marshalParams, jsonField, optRatField, optIntField, hS]

/-- C2: `NewClient` fails exactly on missing credentials, a failing
`url.Parse` of the scheme-normalized base URL, or a failing exporter
construction, propagating each error directly; in every other case it
returns a client. -/
theorem newClient_error_cases (config : Config)
    (urlParse : String → Except String URL)
    (exporterErr : ExporterOptions → Option String) :
    (config.PublicKey = "" ∨ config.SecretKey = "" →
      NewClient config urlParse exporterErr =
        .error "public key and secret key are required") ∧
    (∀ m, config.PublicKey ≠ "" → config.SecretKey ≠ "" →
      urlParse (normalizedBaseURL config) = .error m →
      NewClient config urlParse exporterErr = .error ("invalid base URL: " ++ m)) ∧
    (∀ u m, config.PublicKey ≠ "" → config.SecretKey ≠ "" →
      urlParse (normalizedBaseURL config) = .ok u →
      exporterErr (buildExporterOptions config u) = some m →
      NewClient config urlParse exporterErr =
        .error ("failed to create OTLP exporter: " ++ m)) ∧
    (∀ u, config.PublicKey ≠ "" → config.SecretKey ≠ "" →
      urlParse (normalizedBaseURL config) = .ok u →
      exporterErr (buildExporterOptions config u) = none →
      ∃ c : Client, NewClient config urlParse exporterErr = .ok c) := by
  refine ⟨?_, ?_, ?_, ?_⟩
  · intro h
    unfold NewClient
    rw [if_pos h]
  · intro m hpk hsk hparse
    unfold NewClient
    rw [if_neg (by simp [hpk, hsk]), hparse]
  · intro u m hpk hsk hparse hexp
    unfold NewClient
    rw [if_neg (by simp [hpk, hsk]), hparse]
    simp only [hexp]
  · intro u hpk hsk hparse hexp
    unfold NewClient
    rw [if_neg (by simp [hpk, hsk]), hparse]
    simp only [hexp]
    exact ⟨_, rfl⟩

/-- Witness for C2: the missing-credential error case and the success case,
each at concrete inputs. -/
theorem newClient_error_cases_witness :
    ((cfgNoKeys.PublicKey = "" ∨ cfgNoKeys.SecretKey = "") ∧
      NewClient cfgNoKeys okParse noExporterFailure =
        .error "public key and secret key are required") ∧
    (cfgFull.PublicKey ≠ "" ∧ cfgFull.SecretKey ≠ "" ∧
      okParse (normalizedBaseURL cfgFull) = .ok okURL ∧
      noExporterFailure (buildExporterOptions cfgFull okURL) = none ∧
      ∃ c : Client, NewClient cfgFull okParse noExporterFailure = .ok c) := by
  constructor
  · exact ⟨Or.inl rfl,
      (newClient_error_cases cfgNoKeys okParse noExporterFailure).1 (Or.inl rfl)⟩
  · refine ⟨by decide, by decide, rfl, rfl, ?_⟩
    exact (newClient_error_cases cfgFull okParse noExporterFailure).2.2.2 okURL
      (by decide) (by decide) rfl rfl

/-- C3 counterexample: a config accepted by `NewClient` whose `BaseURL` is
empty produces a client storing the default base URL, not the input field. -/
theorem newClient_baseURL_not_input :
    Except.map Client.baseURL (NewClient cfgEmptyBase okParse noExporterFailure) =
      .ok "https://cloud.langfuse.com" ∧
    cfgEmptyBase.BaseURL = "" ∧
    Except.map Client.baseURL (NewClient cfgEmptyBase okParse noExporterFailure) ≠
      .ok cfgEmptyBase.BaseURL := by
  refine ⟨rfl, rfl, ?_⟩
  intro h
  rw [show Except.map Client.baseURL (NewClient cfgEmptyBase okParse noExporterFailure) =
      .ok "https://cloud.langfuse.com" from rfl] at h
  simp [cfgEmptyBase] at h

/-- C3 (amended): for every config accepted by `NewClient`, the stored
fields equal the inputs, except `baseURL`, which equals the input
`BaseURL` when that is non-empty and the default
`https://cloud.langfuse.com` when it is empty. -/
theorem newClient_populates_config (config : Config)
    (urlParse : String → Except String URL)
    (exporterErr : ExporterOptions → Option String) (c : Client)
    (h : NewClient config urlParse exporterErr = .ok c) :
    c.publicKey = config.PublicKey ∧ c.secretKey = config.SecretKey ∧
    c.baseURL = defaultedBaseURL config ∧
    (config.BaseURL ≠ "" → c.baseURL = config.BaseURL) ∧
    c.release = config.Release ∧ c.environment = config.Environment ∧
    c.isPublic = config.IsPublic := by
  unfold NewClient at h
  by_cases hk : config.PublicKey = "" ∨ config.SecretKey = ""
  · rw [if_pos hk] at h
    exact absurd h (by simp)
  · rw [if_neg hk] at h
    cases hu : urlParse (normalizedBaseURL config) with
    | error e => rw [hu] at h; simp at h
    | ok u =>
        rw [hu] at h
        simp only [] at h
        cases hex : exporterErr (buildExporterOptions config u) with
        | some m => rw [hex] at h; simp at h
        | none =>
            rw [hex] at h
            simp only [Except.ok.injEq] at h
            subst h
            refine ⟨rfl, rfl, rfl, ?_, rfl, rfl, rfl⟩
            intro hb
            simp [defaultedBaseURL, hb]

/-- Witness for C3 (amended) at the concrete config `cfgFull`. -/
theorem newClient_populates_config_witness :
    NewClient cfgFull okParse noExporterFailure = .ok clientFull ∧
    (clientFull.publicKey = cfgFull.PublicKey ∧
     clientFull.secretKey = cfgFull.SecretKey ∧
     clientFull.baseURL = defaultedBaseURL cfgFull ∧
     (cfgFull.BaseURL ≠ "" → clientFull.baseURL = cfgFull.BaseURL) ∧
     clientFull.release = cfgFull.Release ∧
     clientFull.environment = cfgFull.Environment ∧
     clientFull.isPublic = cfgFull.IsPublic) :=
  ⟨rfl, newClient_populates_config cfgFull okParse noExporterFailure clientFull rfl⟩

/-- C5: for every accepted config, the exporter's `Authorization` header is
`Basic ` followed by the base64 encoding of `PublicKey:SecretKey`. -/
theorem newClient_auth_header (config : Config)
    (urlParse : String → Except String URL)
    (exporterErr : ExporterOptions → Option String) (c : Client)
    (h : NewClient config urlParse exporterErr = .ok c) :
    lookupLast c.provider.exporter.options.headers "Authorization" =
      some ("Basic " ++ String.mk (base64Encode (strBytes
        (config.PublicKey ++ ":" ++ config.SecretKey)))) := by
  unfold NewClient at h
  by_cases hk : config.PublicKey = "" ∨ config.SecretKey = ""
  · rw [if_pos hk] at h
    exact absurd h (by simp)
  · rw [if_neg hk] at h
    cases hu : urlParse (normalizedBaseURL config) with
    | error e => rw [hu] at h; simp at h
    | ok u =>
        rw [hu] at h
        simp only [] at h
        cases hex : exporterErr (buildExporterOptions config u) with
        | some m => rw [hex] at h; simp at h
        | none =>
            rw [hex] at h
            simp only [Except.ok.injEq] at h
            subst h
            simp [lookupLast, buildExporterOptions, encodeBasicAuth]

/-- Witness for C5 at the concrete config `cfgFull`. -/
theorem newClient_auth_header_witness :
    NewClient cfgFull okParse noExporterFailure = .ok clientFull ∧
    lookupLast clientFull.provider.exporter.options.headers "Authorization" =
      some ("Basic " ++ String.mk (base64Encode (strBytes
        (cfgFull.PublicKey ++ ":" ++ cfgFull.SecretKey)))) :=
  ⟨rfl, newClient_auth_header cfgFull okParse noExporterFailure clientFull rfl⟩

end Langfuse
